import Mathlib

/-!
Shallow embedding of the duckTracker Download Orchestration Engine:
the persistent store (DatabaseManager / DownloadManager), the engine
(ServerManager) and the host shim (ElectronApp event handlers), as far as
the verified claims need them.

Conventions of the embedding:
* SQL DATETIME values are modeled as `Nat` time stamps (`now` parameters).
* SQL NULL for the nullable text column `title` is modeled as `""`
  (the source never distinguishes an empty title from a NULL one);
  nullable `error_message`, `end_time` and `file_size` use `Option`.
* JavaScript `x || null` bound into `COALESCE(?, col)` keeps the old column
  value both for an absent and for an empty string argument (`coalesceStr`).
* better-sqlite3 rows are a `List` in insertion order; `AUTOINCREMENT`
  is the `nextId` counter of `Store`.
* Progress percentages are modeled as `Nat`; no claim below depends on
  fractional progress values.
* Filesystem and child-process effects are abstracted by boolean
  parameters (`dirOk` for the output-directory creation in
  `ServerManager.startDownload`, `statOk` for the `fs.statSync` call in
  the close handler); the yt-dlp adapter itself is outside the model, the
  engine-side handlers of its events are modeled below.
-/

namespace DuckTracker

/-- Download record status values (shared/types and the SQL status column). -/
inductive Status
  | pending
  | queued
  | downloading
  | completed
  | failed
  | cancelled
  | check
deriving DecidableEq, Repr

/-- A row of the `downloads` table (schema in part_012, migration version 1). -/
structure DownloadRecord where
  id : Nat
  url : String
  urlId : String
  title : String
  status : Status
  progress : Nat
  filePath : String
  fileSize : Option Nat
  errorMessage : Option String
  startTime : Nat
  endTime : Option Nat
  createdAt : Nat
deriving DecidableEq, Repr

/-- The downloads table plus its AUTOINCREMENT counter. -/
structure Store where
  rows : List DownloadRecord
  nextId : Nat
deriving DecidableEq, Repr

/-- JS `x || null` bound into SQL `COALESCE(?, col)`: an absent or empty
string keeps the old column value. -/
def coalesceStr (x : Option String) (old : String) : String :=
  match x with
  | some s => if s = "" then old else s
  | none => old

/-- `SELECT ... WHERE url_id = ? ORDER BY created_at DESC LIMIT 1`
(DownloadManager.getDownloadByUrlId, part_013 474-500). `url_id` is UNIQUE
in the schema, so at most one row matches and `find?` returns it. -/
def getDownloadByUrlId (s : Store) (u : String) : Option DownloadRecord :=
  s.rows.find? (fun r => r.urlId == u)

/-- `SELECT ... WHERE id = ?` (DownloadManager.getDownloadById, part_013 443-469). -/
def getDownloadById (s : Store) (i : Nat) : Option DownloadRecord :=
  s.rows.find? (fun r => r.id == i)

/-- DownloadManager.createDownloadRecord (part_013 40-115):
`INSERT OR IGNORE INTO downloads ...`. When a row with this `url_id`
already exists the insert is ignored (`result.changes == 0`) and the
existing row is fetched and returned untouched; otherwise the new row is
inserted with `id = nextId`. The third component records whether a row
was actually inserted. The source inserts `title || ''`, empty
`file_path` and `error_message`, `start_time = end_time = now`,
and `created_at` defaults to now; `file_size` defaults to 0. -/
def createDownloadRecord (s : Store) (url urlId : String) (title : Option String)
    (status : Status) (now : Nat) : Store × DownloadRecord × Bool :=
  match getDownloadByUrlId s urlId with
  | some r => (s, r, false)
  | none =>
    let inserted : DownloadRecord :=
      { id := s.nextId, url := url, urlId := urlId, title := title.getD "",
        status := status, progress := 0, filePath := "", fileSize := some 0,
        errorMessage := some "", startTime := now, endTime := some now,
        createdAt := now }
    ({ rows := s.rows ++ [inserted], nextId := s.nextId + 1 }, inserted, true)

/-- DownloadManager.handleDownloadStart (part_013 120-185): if a record for
`urlId` exists, `UPDATE downloads SET status = 'downloading', progress = 0,
error_message = NULL, start_time = ?, end_time = NULL,
title = COALESCE(?, title) WHERE url_id = ?` (no status guard); otherwise a
fresh `pending` record is created. -/
def handleDownloadStart (s : Store) (url urlId : String) (title : Option String)
    (now : Nat) : Store :=
  match getDownloadByUrlId s urlId with
  | some _ =>
    { s with rows := s.rows.map (fun r =>
        if r.urlId == urlId then
          { r with status := Status.downloading, progress := 0,
                   errorMessage := none, startTime := now, endTime := none,
                   title := coalesceStr title r.title }
        else r) }
  | none => (createDownloadRecord s url urlId title Status.pending now).1

/-- The row predicate of the guarded progress UPDATE:
`url_id = ? AND status IN ('pending', 'downloading')`. -/
def activeRowFor (urlId : String) (r : DownloadRecord) : Bool :=
  r.urlId == urlId && (r.status == Status.pending || r.status == Status.downloading)

/-- The UPDATE of DownloadManager.updateProgress (part_013 190-230):
`UPDATE downloads SET progress = ?, title = COALESCE(?, title)
WHERE url_id = ? AND status IN ('pending', 'downloading')`;
the second component is `result.changes` (number of matched rows). -/
def updateProgressRows (rows : List DownloadRecord) (urlId : String)
    (progress : Nat) (title : Option String) : List DownloadRecord × Nat :=
  (rows.map (fun r =>
      if activeRowFor urlId r then
        { r with progress := progress, title := coalesceStr title r.title }
      else r),
   (rows.filter (activeRowFor urlId)).length)

/-- The in-memory DownloadProcess entries of DownloadManager.activeDownloads. -/
structure DownloadProcess where
  id : Nat
  urlId : String
  url : String
  status : Status
  progress : Nat
  title : String
  error : Option String
deriving DecidableEq, Repr

/-- DownloadManager.updateProgress (part_013 190-230): runs the guarded
UPDATE; when it matches no row (`changes === 0`, i.e. the record is absent
or not in pending/downloading) it logs and returns before touching the
in-memory map or emitting the update event. The third component records
whether anything changed (an update event was emitted). -/
def updateProgress (s : Store) (dmActive : List (String × DownloadProcess))
    (urlId : String) (progress : Nat) (title : Option String) :
    Store × List (String × DownloadProcess) × Bool :=
  let u := updateProgressRows s.rows urlId progress title
  let s2 : Store := { s with rows := u.1 }
  if u.2 == 0 then (s2, dmActive, false)
  else
    (s2,
     dmActive.map (fun p =>
       if p.1 == urlId then
         (p.1, { p.2 with
                 progress := progress, status := Status.downloading,
                 title := coalesceStr title p.2.title })
       else p),
     true)

/-- DownloadManager.completeDownload (part_013 235-287):
`UPDATE downloads SET status = 'completed', progress = 100,
file_path = COALESCE(?, file_path), end_time = ?, title = COALESCE(?, title),
file_size = ? WHERE url_id = ? AND status IN ('pending', 'downloading')`.
Second component is `result.changes`. -/
def completeDownload (s : Store) (urlId : String) (filePath : Option String)
    (title : Option String) (fileSize : Option Nat) (now : Nat) : Store × Nat :=
  ({ s with rows := s.rows.map (fun r =>
      if activeRowFor urlId r then
        { r with status := Status.completed, progress := 100,
                 filePath := coalesceStr filePath r.filePath,
                 endTime := some now, title := coalesceStr title r.title,
                 fileSize := fileSize }
      else r) },
   (s.rows.filter (activeRowFor urlId)).length)

/-- DownloadManager.failDownload (part_013 292-337):
`UPDATE downloads SET status = 'failed', error_message = ?, end_time = ?,
title = COALESCE(?, title) WHERE url_id = ?` — note: no status guard, a
failure always applies to whatever row holds this `url_id`. -/
def failDownload (s : Store) (urlId : String) (error : String)
    (title : Option String) (now : Nat) : Store × Nat :=
  ({ s with rows := s.rows.map (fun r =>
      if r.urlId == urlId then
        { r with status := Status.failed, errorMessage := some error,
                 endTime := some now, title := coalesceStr title r.title }
      else r) },
   (s.rows.filter (fun r => r.urlId == urlId)).length)

/-- DownloadManager.cancelDownload (part_013 342-381):
`UPDATE downloads SET status = 'cancelled', end_time = ?
WHERE url_id = ? AND status IN ('pending', 'downloading')`. -/
def cancelDownload (s : Store) (urlId : String) (now : Nat) : Store × Nat :=
  ({ s with rows := s.rows.map (fun r =>
      if activeRowFor urlId r then
        { r with status := Status.cancelled, endTime := some now }
      else r) },
   (s.rows.filter (activeRowFor urlId)).length)

/-- The field reset performed by DownloadManager.retryDownload:
`SET status = ?, progress = ?, error_message = ?, start_time = ?, end_time = ?`
with values `(status, 0, null, now, null)`. -/
def retryReset (status : Status) (now : Nat) (r : DownloadRecord) : DownloadRecord :=
  { r with status := status, progress := 0, errorMessage := none,
           startTime := now, endTime := none }

/-- The rows after retryDownload's UPDATE ... WHERE id = ?. -/
def retryRows (rows : List DownloadRecord) (id : Nat) (status : Status)
    (now : Nat) : List DownloadRecord :=
  rows.map (fun r => if r.id == id then retryReset status now r else r)

/-- DownloadManager.retryDownload (part_013 646-702): looks the record up by
id (throws, modeled `none`, when absent), resets it, re-fetches and returns
the updated record; the caller side also receives a
download-restarted-request carrying the updated url/urlId/title. -/
def retryDownload (s : Store) (id : Nat) (status : Status) (now : Nat) :
    Option DownloadRecord × Store :=
  match getDownloadById s id with
  | none => (none, s)
  | some _ =>
    let s2 : Store := { s with rows := retryRows s.rows id status now }
    (getDownloadById s2 id, s2)

/-- Stable insertion (ties keep original order) used to model SQL ORDER BY
on a Nat key; SQLite leaves tie order unspecified, this model fixes the
stable choice. -/
def sortedInsertBy (key : DownloadRecord → Nat) (r : DownloadRecord) :
    List DownloadRecord → List DownloadRecord
  | [] => [r]
  | q :: qs =>
    if key r ≤ key q then r :: q :: qs else q :: sortedInsertBy key r qs

/-- Insertion sort by a Nat key (model of SQL ORDER BY key ASC). -/
def sortByKey (key : DownloadRecord → Nat) (l : List DownloadRecord) :
    List DownloadRecord :=
  l.foldr (sortedInsertBy key) []

/-- DownloadManager.getDownloadsByStatus (part_013 704-740):
`SELECT ... WHERE status IN (...) ORDER BY start_time ASC`. -/
def getDownloadsByStatus (s : Store) (statuses : List Status) :
    List DownloadRecord :=
  sortByKey (fun r => r.startTime) (s.rows.filter (fun r => statuses.contains r.status))

/-- The row returned by `ORDER BY id ASC LIMIT 1`: the element with the
least id (first one on ties; ids are unique under AUTOINCREMENT). -/
def minById : List DownloadRecord → Option DownloadRecord
  | [] => none
  | r :: rs =>
    match minById rs with
    | none => some r
    | some m => if r.id ≤ m.id then some r else some m

/-- DownloadManager.popNextQueuedDownload (part_013 742-783): in one
transaction, `SELECT ... WHERE status = 'queued' ORDER BY id ASC LIMIT 1`,
then `UPDATE downloads SET status = 'pending' WHERE id = ?` on the selected
row; returns the pre-update row, or `none` when no queued row exists. -/
def popNextQueuedDownload (s : Store) : Option DownloadRecord × Store :=
  match minById (s.rows.filter (fun r => r.status == Status.queued)) with
  | none => (none, s)
  | some r =>
    (some r,
     { s with rows := s.rows.map (fun q =>
         if q.id == r.id then { q with status := Status.pending } else q) })

/-- `[n, n+1, ..., n+k-1]`: the ids a fresh AUTOINCREMENT table assigns. -/
def natRangeFrom : Nat → Nat → List Nat
  | _, 0 => []
  | n, k + 1 => n :: natRangeFrom (n + 1) k

/-- The renumbering performed by copying rows into a fresh AUTOINCREMENT
table: ids become n, n+1, ... in list order. -/
def renumberFrom (n : Nat) : List DownloadRecord → List DownloadRecord
  | [] => []
  | r :: rs => { r with id := n } :: renumberFrom (n + 1) rs

/-- DatabaseManager.reindexDownloadsId (part_012 131-192): copy every row
`ORDER BY created_at` into a fresh table whose AUTOINCREMENT assigns ids
1..n, drop the old table and rename. Run on every DatabaseManager startup
right after the migrations. -/
def reindexDownloadsId (s : Store) : Store :=
  let sorted := sortByKey (fun r => r.createdAt) s.rows
  { rows := renumberFrom 1 sorted, nextId := sorted.length + 1 }

/-- Helper of ServerManager.removeDuplicates. -/
def dedupAux (seen : List String) : List String → List String
  | [] => []
  | x :: xs => if seen.contains x then dedupAux seen xs else x :: dedupAux (x :: seen) xs

/-- ServerManager.removeDuplicates (ServerManager.ts 423-425):
`[...new Set(url_ids)]` keeps the first occurrence of each id, in order. -/
def removeDuplicates (l : List String) : List String := dedupAux [] l

/-- `SELECT url_id FROM downloads WHERE url_id = i` is nonempty. -/
def hasUrlId (s : Store) (i : String) : Bool :=
  s.rows.any (fun r => r.urlId == i)

/-- One `INSERT INTO downloads (url_id, url, status, start_time, end_time)
VALUES (?, ?, 'check', ?, ?) ON CONFLICT(url_id) DO NOTHING` from the
sync-history bulk insert (ServerManager.ts 442-471): a check row with the
synthesized watch URL, NULL title (modeled ""), NULL error, default
progress 0 and file_size 0, start_time = end_time = now. -/
def syncInsertCheck (now : Nat) (s : Store) (i : String) : Store :=
  if hasUrlId s i then s
  else
    { rows := s.rows ++
        [{ id := s.nextId, url := "https://www.youtube.com/watch?v=" ++ i,
           urlId := i, title := "", status := Status.check, progress := 0,
           filePath := "", fileSize := some 0, errorMessage := none,
           startTime := now, endTime := some now, createdAt := now }],
      nextId := s.nextId + 1 }

/-- The sync-history branch of ServerManager.handleWsConnection
(ServerManager.ts 427-496): dedupe the client ids, insert the ids absent
from the store as check rows (the bulk insert only receives
`newUrlIds`, the ids not already present), then answer with every stored
url_id that is not in the client set. The source builds `IN (...)` lists,
which is a SQL error for an empty client set, so the model is only used
for nonempty input. -/
def syncHistory (s : Store) (clientIds : List String) (now : Nat) :
    Store × List String :=
  let url_ids := removeDuplicates clientIds
  let newUrlIds := url_ids.filter (fun i => !(hasUrlId s i))
  let s2 := newUrlIds.foldl (syncInsertCheck now) s
  (s2, (s2.rows.filter (fun r => !(url_ids.contains r.urlId))).map (fun r => r.urlId))

/-- The payload of a start request / download-restarted-request:
`{ url, urlId, title }` (extra yt-dlp options do not enter the engine's
admission logic and are omitted). -/
structure StartData where
  url : String
  urlId : String
  title : String
deriving DecidableEq, Repr

/-- One iteration of ElectronApp.resumeUnfinishedDownloads: retryDownload
the record (default reset status pending); on success the
download-restarted-request payload (url/urlId/title of the updated record)
is collected, a failed retry is swallowed. -/
def resumeStep (now : Nat) (acc : Store × List StartData) (d : DownloadRecord) :
    Store × List StartData :=
  match retryDownload acc.1 d.id Status.pending now with
  | (some r, s2) => (s2, acc.2 ++ [{ url := r.url, urlId := r.urlId, title := r.title }])
  | (none, s2) => (s2, acc.2)

/-- ElectronApp.resumeUnfinishedDownloads (part_014 1383-1409): fetch all
records with status downloading/pending/queued and call retryDownload on
each; every successful retry emits a download-restarted-request, which
re-enters ServerManager.startDownload via startDownloadFromMain. -/
def resumeUnfinishedDownloads (s : Store) (now : Nat) : Store × List StartData :=
  (getDownloadsByStatus s [Status.downloading, Status.pending, Status.queued]).foldl
    (resumeStep now) (s, [])

/-- The steps of ElectronApp startup that matter to recovery ordering. -/
inductive InitStep
  | createMainWindow
  | setupSystemTray
  | setupIpcHandlers
  | startServerAccepting
  | resumeUnfinished
deriving DecidableEq, Repr

/-- The startup order of ElectronApp (part_014 518-522): the HTTP/WS server
is started — and begins accepting external requests — strictly before
resumeUnfinishedDownloads runs. -/
def initSequence : List InitStep :=
  [InitStep.createMainWindow, InitStep.setupSystemTray, InitStep.setupIpcHandlers,
   InitStep.startServerAccepting, InitStep.resumeUnfinished]

/-- The slice of ServerConfig the engine's admission logic reads. -/
structure ServerConfig where
  maxConcurrentDownloads : Nat
deriving DecidableEq, Repr

/-- The domain events ServerManager emits (ServerManager.ts); requestNext
models the request-next-download event of processDownloadQueue. -/
inductive Ev
  | started (urlId url title : String)
  | progress (urlId url title : String) (percent : Nat)
  | completed (urlId url title filePath : String) (fileSize : Option Nat)
  | failed (urlId url title error : String)
  | queued (urlId url title : String)
  | stopped (urlId : String)
  | requestNext
deriving DecidableEq, Repr

/-- ServerManager's mutable state: config, the activeDownloads keys (the
AbortController values are modeled by membership itself) and the
downloadsState status strings per urlId. -/
structure EngineState where
  config : Option ServerConfig
  active : List String
  dstate : List (String × String)
  store : Store
deriving DecidableEq, Repr

/-- downloadsState.get(k).status. -/
def getDS (m : List (String × String)) (k : String) : Option String :=
  (m.find? (fun p => p.1 == k)).map (fun p => p.2)

/-- downloadsState.set(k, { status := v, ... }). -/
def setDS (m : List (String × String)) (k v : String) : List (String × String) :=
  (k, v) :: m.filter (fun p => p.1 != k)

/-- The outcome of one ServerManager.startDownload call: the state after
the synchronous part, the events emitted, whether yt-dlp was handed the
job (`this.ytDlpWrap.exec` reached), and the returned boolean. -/
structure StartResult where
  state : EngineState
  events : List Ev
  adapterInvoked : Bool
  result : Bool
deriving DecidableEq, Repr

/-- The branch of ServerManager.startDownload after the admission checks
(ServerManager.ts 225-246): at capacity, create/ignore a queued record,
emit download-queued and return true without starting yt-dlp; below
capacity, reserve the AbortController slot, record downloadsState
'started', emit download-started and invoke yt-dlp. -/
def startAdmit (e : EngineState) (config : ServerConfig) (d : StartData)
    (now : Nat) : StartResult :=
  if e.active.length ≥ config.maxConcurrentDownloads then
    { state := { e with
        store := (createDownloadRecord e.store d.url d.urlId (some d.title)
                    Status.queued now).1 },
      events := [Ev.queued d.urlId d.url d.title],
      adapterInvoked := false, result := true }
  else
    { state := { e with
        active := e.active ++ [d.urlId],
        dstate := setDS e.dstate d.urlId "started" },
      events := [Ev.started d.urlId d.url d.title],
      adapterInvoked := true, result := true }

/-- ServerManager.startDownload (ServerManager.ts 183-368), its synchronous
admission part. `dirOk` abstracts the output-directory existence check and
creation; the missing-config and directory-failure branches emit
download-failed and return false; an already-active urlId emits
download-failed with "This video is already being downloaded." and returns
false; a stored completed record short-circuits: delete from active (a
no-op when absent), set downloadsState completed, emit download-completed
with the stored url/title/filePath (no fileSize) and return false without
invoking yt-dlp. -/
def startDownload (e : EngineState) (d : StartData) (dirOk : Bool)
    (now : Nat) : StartResult :=
  match e.config with
  | none =>
    { state := e, events := [Ev.failed d.urlId d.url d.title "Server not configured"],
      adapterInvoked := false, result := false }
  | some config =>
    if !dirOk then
      { state := e,
        events := [Ev.failed d.urlId d.url d.title "Failed to create download directory."],
        adapterInvoked := false, result := false }
    else if e.active.contains d.urlId then
      { state := e,
        events := [Ev.failed d.urlId d.url d.title "This video is already being downloaded."],
        adapterInvoked := false, result := false }
    else
      match getDownloadByUrlId e.store d.urlId with
      | some r =>
        if r.status == Status.completed then
          { state := { e with
              active := e.active.filter (fun x => x != d.urlId),
              dstate := setDS e.dstate d.urlId "completed" },
            events := [Ev.completed d.urlId r.url r.title r.filePath none],
            adapterInvoked := false, result := false }
        else startAdmit e config d now
      | none => startAdmit e config d now

/-- ElectronApp.setupServerEventHandlers (part_014 237-304): the effect of
each ServerManager event on the store through DownloadManager.
download-started calls handleDownloadStart; download-progress calls
updateProgress; download-completed calls completeDownload;
download-failed calls failDownload; download-queued calls
createDownloadRecord(... 'queued'); download-stopped calls cancelDownload.
request-next-download is handled by handleRequestNext below. -/
def appApplyEvent (now : Nat) (s : Store) : Ev → Store
  | Ev.started u url title => handleDownloadStart s url u (some title) now
  | Ev.progress u _ title pct => (updateProgressRows s.rows u pct (some title)).1 |>
      (fun rows2 => { s with rows := rows2 })
  | Ev.completed u _ title fp sz => (completeDownload s u (some fp) (some title) sz now).1
  | Ev.failed u _ title err => (failDownload s u err (some title) now).1
  | Ev.queued u url title => (createDownloadRecord s url u (some title) Status.queued now).1
  | Ev.stopped u => (cancelDownload s u now).1
  | Ev.requestNext => s

/-- One start request followed by the app-side store handling of the events
it emitted (the handlers run after the synchronous part, in emission
order). -/
def systemStart (e : EngineState) (d : StartData) (dirOk : Bool)
    (now : Nat) : StartResult :=
  let r := startDownload e d dirOk now
  { r with state := { r.state with
      store := r.events.foldl (appApplyEvent now) r.state.store } }

/-- ServerManager.processDownloadQueue (ServerManager.ts 514-518): emit
request-next-download when configured and below the concurrency limit. -/
def processDownloadQueue (e : EngineState) : List Ev :=
  match e.config with
  | some c => if e.active.length < c.maxConcurrentDownloads then [Ev.requestNext] else []
  | none => []

/-- The close handler of ServerManager.startDownload (ServerManager.ts
329-360): delete from active; unless downloadsState says 'stop' or 'error',
set downloadsState completed, stat the file and emit download-completed
with the resolved path and size. `resolvedPath` abstracts currentFilePath
after the optional --get-filename lookup; `statOk` abstracts
`fs.statSync(currentFilePath)`, which sits outside the try block — when it
throws, the rest of the handler (the completed emit and
processDownloadQueue) never runs. -/
def handleClose (e : EngineState) (d : StartData) (title resolvedPath : String)
    (fileSize : Nat) (statOk : Bool) : EngineState × List Ev :=
  let e1 := { e with active := e.active.filter (fun x => x != d.urlId) }
  if getDS e1.dstate d.urlId ≠ some "stop" ∧ getDS e1.dstate d.urlId ≠ some "error" then
    let e2 := { e1 with dstate := setDS e1.dstate d.urlId "completed" }
    if statOk then
      (e2, [Ev.completed d.urlId d.url title resolvedPath (some fileSize)] ++
           processDownloadQueue e2)
    else (e2, [])
  else (e1, processDownloadQueue e1)

/-- The error handler of ServerManager.startDownload (ServerManager.ts
314-328): AbortError messages are ignored (the close handler does the
bookkeeping); otherwise delete from active, record downloadsState 'error',
emit download-failed and advance the queue. -/
def handleError (e : EngineState) (d : StartData) (title errMsg : String)
    (isAbort : Bool) : EngineState × List Ev :=
  if isAbort then (e, [])
  else
    let e1 := { e with
      active := e.active.filter (fun x => x != d.urlId),
      dstate := setDS e.dstate d.urlId "error" }
    (e1, [Ev.failed d.urlId d.url title errMsg] ++ processDownloadQueue e1)

/-- ServerManager.stopDownload (ServerManager.ts 532-547): when an
AbortController is held for urlId, abort it, delete from active, record
downloadsState 'stop', emit download-stopped and return true; otherwise
return false without any effect. -/
def stopDownload (e : EngineState) (urlId : String) :
    EngineState × List Ev × Bool :=
  if e.active.contains urlId then
    ({ e with
       active := e.active.filter (fun x => x != urlId),
       dstate := setDS e.dstate urlId "stop" },
     [Ev.stopped urlId], true)
  else (e, [], false)

/-- The request-next-download handler of ElectronApp (part_014 291-304):
pop the next queued record from the store and start it via
startDownloadFromMain. The first component is the start request issued,
when a record was popped. -/
def handleRequestNext (e : EngineState) (dirOk : Bool) (now : Nat) :
    Option StartData × StartResult :=
  match popNextQueuedDownload e.store with
  | (none, _) => (none, { state := e, events := [], adapterInvoked := false, result := false })
  | (some r, s2) =>
    let d : StartData := { url := r.url, urlId := r.urlId, title := r.title }
    (some d, systemStart { e with store := s2 } d dirOk now)

/-- A full close step at the system level: run the close handler, apply its
events to the store, and when it requested queue advancement run the
request-next-download handler. -/
def systemClose (e : EngineState) (d : StartData) (title resolvedPath : String)
    (fileSize : Nat) (statOk dirOk : Bool) (now : Nat) : EngineState :=
  let r := handleClose e d title resolvedPath fileSize statOk
  let e2 := { r.1 with store := r.2.foldl (appApplyEvent now) r.1.store }
  if r.2.contains Ev.requestNext then (handleRequestNext e2 dirOk now).2.state else e2

/-! ### Helper lemmas -/

theorem map_ite_id {α : Type} {p : α → Bool} {f : α → α} {l : List α}
    (h : ∀ x ∈ l, p x = false) :
    l.map (fun x => if p x then f x else x) = l := by
  have h2 : ∀ x ∈ l, (fun x => if p x then f x else x) x = id x := by
    intro x hx
    simp [h x hx]
  rw [List.map_congr_left h2, List.map_id]

theorem completeDownload_noop (s : Store) (u : String) (fp t : Option String)
    (fz : Option Nat) (now : Nat)
    (h : ∀ x ∈ s.rows, activeRowFor u x = false) :
    (completeDownload s u fp t fz now).1 = s := by
  simp only [completeDownload]
  rw [map_ite_id h]

theorem activeRowFor_false_of_not_active (u : String) (x : DownloadRecord)
    (h : x.urlId = u → x.status ≠ Status.pending ∧ x.status ≠ Status.downloading) :
    activeRowFor u x = false := by
  unfold activeRowFor
  by_cases hu : x.urlId = u
  · obtain ⟨h1, h2⟩ := h hu
    cases hs : x.status <;> simp_all
  · simp [hu]

/-- A minimal row literal used by the concrete witness states below. -/
def sampleRow (i : Nat) (uid : String) (st : Status) : DownloadRecord :=
  { id := i, url := "u" ++ uid, urlId := uid, title := "", status := st,
    progress := 0, filePath := "", fileSize := some 0, errorMessage := none,
    startTime := i, endTime := none, createdAt := i }

/-! ### C9 — updateProgress is a no-op on records that are not pending/downloading -/

/-- C9: `updateProgress(urlId, percent, title?)` is a no-op whenever the
record for `urlId` is not in status pending or downloading (including when
no record exists): the store is left unchanged in every field, the
in-memory active map is untouched, and no update event is emitted. -/
theorem updateProgress_noop_when_inactive (s : Store)
    (dm : List (String × DownloadProcess)) (u : String) (pr : Nat)
    (t : Option String)
    (h : ∀ r ∈ s.rows, r.urlId = u →
      r.status ≠ Status.pending ∧ r.status ≠ Status.downloading) :
    updateProgress s dm u pr t = (s, dm, false) := by
  have hp : ∀ r ∈ s.rows, activeRowFor u r = false := fun r hr =>
    activeRowFor_false_of_not_active u r (h r hr)
  have hfil : s.rows.filter (activeRowFor u) = [] := by
    apply List.filter_eq_nil_iff.mpr
    intro r hr
    simp [hp r hr]
  simp only [updateProgress, updateProgressRows, hfil, List.length_nil]
  rw [map_ite_id hp]
  rfl

theorem updateProgress_noop_when_inactive_witness :
    (∀ r ∈ (Store.mk [sampleRow 1 "A" Status.completed] 2).rows, r.urlId = "A" →
      r.status ≠ Status.pending ∧ r.status ≠ Status.downloading) ∧
    updateProgress (Store.mk [sampleRow 1 "A" Status.completed] 2) [] "A" 55 none =
      (Store.mk [sampleRow 1 "A" Status.completed] 2, [], false) :=
  ⟨by decide, updateProgress_noop_when_inactive _ _ _ _ _ (by decide)⟩

/-! ### C10 — stopDownload on a never-started (queued) urlId -/

/-- C10 (amended): stopDownload for a urlId that holds no AbortController
in the active set returns false and has no effect whatsoever: the engine
state (including the store, so also a queued record) is unchanged and no
event is emitted — in particular the record is never transitioned to
cancelled by the call. (It does not, however, stay queued forever: queue
advancement later pops and starts it, see the counterexample.) -/
theorem stop_inactive_noop (e : EngineState) (u : String)
    (h : e.active.contains u = false) :
    stopDownload e u = (e, [], false) := by
  have hm : u ∉ e.active := by simpa using h
  simp [stopDownload, hm]

theorem stop_inactive_noop_witness :
    ((EngineState.mk (some (ServerConfig.mk 1)) ["A"] []
        (Store.mk [sampleRow 2 "B" Status.queued] 3)).active.contains "B" = false) ∧
    stopDownload (EngineState.mk (some (ServerConfig.mk 1)) ["A"] []
        (Store.mk [sampleRow 2 "B" Status.queued] 3)) "B" =
      (EngineState.mk (some (ServerConfig.mk 1)) ["A"] []
        (Store.mk [sampleRow 2 "B" Status.queued] 3), [], false) :=
  ⟨by decide, stop_inactive_noop _ _ (by decide)⟩

/-- A concrete engine state shared by the C4 and C10 counterexamples:
concurrency limit 1, urlId A actively downloading, urlId B queued and
never started. -/
def engineAB : EngineState :=
  EngineState.mk (some (ServerConfig.mk 1)) ["A"] [("A", "progress")]
    (Store.mk [sampleRow 1 "A" Status.downloading, sampleRow 2 "B" Status.queued] 3)

/-- C10 counterexample to "the record stays queued forever": stopping the
queued, never-started urlId B is a pure no-op (record still queued), but
as soon as A's download closes, queue advancement pops B and starts it —
afterwards B's record is downloading, not queued. -/
theorem stopped_queued_record_later_starts :
    stopDownload engineAB "B" = (engineAB, [], false) ∧
    (getDownloadByUrlId engineAB.store "B").map (fun r => r.status) =
      some Status.queued ∧
    (getDownloadByUrlId
        (systemClose engineAB (StartData.mk "uA" "A" "") "tA" "/f/a" 5 true true 9).store
        "B").map (fun r => r.status) = some Status.downloading := by
  decide

/-! ### C1 — a start request for an already-active urlId -/

/-- The concrete engine state of the C1 failing input: urlId A is in the
active set and its record is downloading at 40 percent. -/
def engineC1 : EngineState :=
  EngineState.mk (some (ServerConfig.mk 2)) ["A"] [("A", "progress")]
    (Store.mk [{ sampleRow 1 "A" Status.downloading with progress := 40 }] 2)

/-- C1 (code bug): a second start request for the already-active urlId A is
rejected without invoking the adapter and without aborting the in-progress
download (active set unchanged, result false — not an HTTP error), BUT the
rejection is emitted as a download-failed event, and failDownload's UPDATE
carries no status guard, so the stored record of the still-running download
is flipped to failed — it is not left unchanged as specified. Afterwards
the genuine completion is dropped: completeDownload's guarded UPDATE
matches zero rows on the failed record. -/
theorem already_downloading_marks_record_failed :
    (systemStart engineC1 (StartData.mk "uA" "A" "") true 5).result = false ∧
    (systemStart engineC1 (StartData.mk "uA" "A" "") true 5).adapterInvoked = false ∧
    (systemStart engineC1 (StartData.mk "uA" "A" "") true 5).events =
      [Ev.failed "A" "uA" "" "This video is already being downloaded."] ∧
    (systemStart engineC1 (StartData.mk "uA" "A" "") true 5).state.active = ["A"] ∧
    (getDownloadByUrlId
        (systemStart engineC1 (StartData.mk "uA" "A" "") true 5).state.store
        "A").map (fun r => r.status) = some Status.failed ∧
    (completeDownload
        (systemStart engineC1 (StartData.mk "uA" "A" "") true 5).state.store
        "A" (some "/f/a") none (some 5) 9).2 = 0 := by
  decide

/-! ### C2 — completed records short-circuit -/

/-- C2: a start request whose urlId has a stored completed record (and is
not currently active) never reaches the adapter: yt-dlp is not invoked,
exactly one download-completed event carrying the previously stored
url/title/filePath is emitted immediately, and the stored record is left
unchanged (the completed event's completeDownload is a guarded no-op on a
completed record). -/
theorem completed_short_circuit (e : EngineState) (c : ServerConfig)
    (d : StartData) (r : DownloadRecord) (now : Nat)
    (hc : e.config = some c)
    (hact : e.active.contains d.urlId = false)
    (hr : getDownloadByUrlId e.store d.urlId = some r)
    (hst : r.status = Status.completed)
    (hnd : (e.store.rows.map (fun q => q.urlId)).Nodup) :
    (systemStart e d true now).adapterInvoked = false ∧
    (systemStart e d true now).events =
      [Ev.completed d.urlId r.url r.title r.filePath none] ∧
    (systemStart e d true now).state.store = e.store := by
  have hrmem : r ∈ e.store.rows := List.mem_of_find?_eq_some hr
  have hru : r.urlId = d.urlId := by
    have := List.find?_some hr
    simpa [beq_iff_eq] using this
  have hstore : ∀ x ∈ e.store.rows, activeRowFor d.urlId x = false := by
    intro x hx
    apply activeRowFor_false_of_not_active
    intro hu
    have hx_eq : x = r :=
      List.inj_on_of_nodup_map hnd hx hrmem (by rw [hu, hru])
    rw [hx_eq, hst]
    exact ⟨by simp, by simp⟩
  have hcompl := completeDownload_noop e.store d.urlId (some r.filePath)
    (some r.title) none now hstore
  have hm : d.urlId ∉ e.active := by simpa using hact
  simp [systemStart, startDownload, hc, hm, hr, hst, appApplyEvent, hcompl]

theorem completed_short_circuit_witness :
    ((EngineState.mk (some (ServerConfig.mk 3)) [] []
        (Store.mk [{ sampleRow 1 "A" Status.completed with
                     filePath := "/f/a", progress := 100 }] 2)).config =
      some (ServerConfig.mk 3)) ∧
    (systemStart (EngineState.mk (some (ServerConfig.mk 3)) [] []
        (Store.mk [{ sampleRow 1 "A" Status.completed with
                     filePath := "/f/a", progress := 100 }] 2))
      (StartData.mk "uA" "A" "") true 5).adapterInvoked = false ∧
    (systemStart (EngineState.mk (some (ServerConfig.mk 3)) [] []
        (Store.mk [{ sampleRow 1 "A" Status.completed with
                     filePath := "/f/a", progress := 100 }] 2))
      (StartData.mk "uA" "A" "") true 5).events =
      [Ev.completed "A" "uA" "" "/f/a" none] ∧
    (systemStart (EngineState.mk (some (ServerConfig.mk 3)) [] []
        (Store.mk [{ sampleRow 1 "A" Status.completed with
                     filePath := "/f/a", progress := 100 }] 2))
      (StartData.mk "uA" "A" "") true 5).state.store =
      Store.mk [{ sampleRow 1 "A" Status.completed with
                  filePath := "/f/a", progress := 100 }] 2 := by
  refine ⟨rfl, ?_⟩
  have h := completed_short_circuit
    (EngineState.mk (some (ServerConfig.mk 3)) [] []
      (Store.mk [{ sampleRow 1 "A" Status.completed with
                   filePath := "/f/a", progress := 100 }] 2))
    (ServerConfig.mk 3) (StartData.mk "uA" "A" "")
    { sampleRow 1 "A" Status.completed with filePath := "/f/a", progress := 100 }
    5 rfl (by decide) (by decide) rfl (by decide)
  exact ⟨h.1, h.2.1, h.2.2⟩

/-! ### C3 — admission at capacity -/

/-- C3 (amended): when a start request arrives at or above the concurrency
limit (urlId neither active nor completed), the adapter is not started, a
download-queued event is emitted and the request is accepted. If no record
exists for urlId, a fresh queued record is inserted (once — the handler's
second createDownloadRecord is ignored); if a record already exists with
any non-completed status, it is left entirely unchanged by the
insert-or-ignore — in particular it is NOT updated to queued. -/
theorem queued_admission (e : EngineState) (c : ServerConfig) (d : StartData)
    (now : Nat)
    (hc : e.config = some c)
    (hact : e.active.contains d.urlId = false)
    (hcap : c.maxConcurrentDownloads ≤ e.active.length)
    (hnotc : ∀ r, getDownloadByUrlId e.store d.urlId = some r →
      r.status ≠ Status.completed) :
    (systemStart e d true now).adapterInvoked = false ∧
    (systemStart e d true now).result = true ∧
    (systemStart e d true now).events = [Ev.queued d.urlId d.url d.title] ∧
    (getDownloadByUrlId e.store d.urlId = none →
      (systemStart e d true now).state.store.rows = e.store.rows ++
        [{ id := e.store.nextId, url := d.url, urlId := d.urlId,
           title := d.title, status := Status.queued, progress := 0,
           filePath := "", fileSize := some 0, errorMessage := some "",
           startTime := now, endTime := some now, createdAt := now }]) ∧
    (∀ r, getDownloadByUrlId e.store d.urlId = some r →
      (systemStart e d true now).state.store = e.store) := by
  have hm : d.urlId ∉ e.active := by simpa using hact
  cases hfind : getDownloadByUrlId e.store d.urlId with
  | none =>
    have hfind2 :
        getDownloadByUrlId
          { rows := e.store.rows ++
              [{ id := e.store.nextId, url := d.url, urlId := d.urlId,
                 title := d.title, status := Status.queued, progress := 0,
                 filePath := "", fileSize := some 0, errorMessage := some "",
                 startTime := now, endTime := some now, createdAt := now }],
            nextId := e.store.nextId + 1 } d.urlId =
          some { id := e.store.nextId, url := d.url, urlId := d.urlId,
                 title := d.title, status := Status.queued, progress := 0,
                 filePath := "", fileSize := some 0, errorMessage := some "",
                 startTime := now, endTime := some now, createdAt := now } := by
      unfold getDownloadByUrlId at hfind ⊢
      rw [List.find?_append, hfind]
      simp
    simp [systemStart, startDownload, startAdmit, createDownloadRecord,
      hc, hm, hcap, hfind, hfind2, appApplyEvent]
  | some r =>
    have hr := hnotc r hfind
    have hrb : (r.status == Status.completed) = false := by
      cases hs : r.status <;> simp_all
    simp [systemStart, startDownload, startAdmit, createDownloadRecord,
      hc, hm, hcap, hfind, hrb, appApplyEvent]

/-- The concrete witness state for C3: empty store, at the limit. -/
def engineC3w : EngineState :=
  EngineState.mk (some (ServerConfig.mk 1)) ["B"] [] (Store.mk [] 1)

theorem queued_admission_witness :
    (engineC3w.config = some (ServerConfig.mk 1) ∧
     engineC3w.active.contains "A" = false ∧
     (ServerConfig.mk 1).maxConcurrentDownloads ≤ engineC3w.active.length ∧
     (∀ r, getDownloadByUrlId engineC3w.store "A" = some r →
        r.status ≠ Status.completed)) ∧
    (systemStart engineC3w (StartData.mk "uA" "A" "") true 5).adapterInvoked = false ∧
    (systemStart engineC3w (StartData.mk "uA" "A" "") true 5).result = true ∧
    (systemStart engineC3w (StartData.mk "uA" "A" "") true 5).events =
      [Ev.queued "A" "uA" ""] := by
  refine ⟨⟨rfl, by decide, by decide, by decide⟩, ?_⟩
  have h := queued_admission engineC3w (ServerConfig.mk 1)
    (StartData.mk "uA" "A" "") 5 rfl (by decide) (by decide) (by decide)
  exact ⟨h.1, h.2.1, h.2.2.1⟩

/-- The concrete engine state of the C3 counterexample: urlId A has an
existing failed record, the single download slot is taken by B. -/
def engineC3 : EngineState :=
  EngineState.mk (some (ServerConfig.mk 1)) ["B"] []
    (Store.mk [sampleRow 1 "A" Status.failed] 2)

/-- C3 counterexample: at capacity, a start request for urlId A (whose
record is failed, not completed, and not active) is accepted and a queued
event is emitted — but the stored record is neither created nor updated to
queued: it stays failed, and no queued record exists anywhere in the
store. -/
theorem queued_event_without_queued_record :
    (systemStart engineC3 (StartData.mk "uA" "A" "") true 5).result = true ∧
    (systemStart engineC3 (StartData.mk "uA" "A" "") true 5).events =
      [Ev.queued "A" "uA" ""] ∧
    (getDownloadByUrlId
        (systemStart engineC3 (StartData.mk "uA" "A" "") true 5).state.store
        "A").map (fun r => r.status) = some Status.failed ∧
    (∀ r ∈ (systemStart engineC3 (StartData.mk "uA" "A" "") true 5).state.store.rows,
       r.status ≠ Status.queued) := by
  decide

/-! ### C5 — popNextQueuedDownload -/

theorem minById_eq_nil {l : List DownloadRecord} (h : minById l = none) :
    l = [] := by
  cases l with
  | nil => rfl
  | cons a as =>
    exfalso
    cases hm : minById as with
    | none =>
      simp only [minById, hm] at h
      exact Option.noConfusion h
    | some m =>
      simp only [minById, hm] at h
      by_cases hle : a.id ≤ m.id
      · rw [if_pos hle] at h; exact Option.noConfusion h
      · rw [if_neg hle] at h; exact Option.noConfusion h

theorem minById_mem {l : List DownloadRecord} {r : DownloadRecord}
    (h : minById l = some r) : r ∈ l := by
  induction l generalizing r with
  | nil => exact absurd h (by simp [minById])
  | cons a as ih =>
    cases hm : minById as with
    | none =>
      simp only [minById, hm] at h
      injection h with h2
      rw [← h2]
      exact List.mem_cons_self _ _
    | some m =>
      simp only [minById, hm] at h
      by_cases hle : a.id ≤ m.id
      · rw [if_pos hle] at h
        injection h with h2
        rw [← h2]
        exact List.mem_cons_self _ _
      · rw [if_neg hle] at h
        injection h with h2
        rw [← h2]
        exact List.mem_cons_of_mem _ (ih hm)

theorem minById_min {l : List DownloadRecord} {r : DownloadRecord}
    (h : minById l = some r) : ∀ q ∈ l, r.id ≤ q.id := by
  induction l generalizing r with
  | nil => simp
  | cons a as ih =>
    intro q hq
    cases hm : minById as with
    | none =>
      simp only [minById, hm] at h
      injection h with h2
      rcases List.mem_cons.mp hq with hqa | hqas
      · rw [← h2, hqa]
      · rw [minById_eq_nil hm] at hqas
        exact absurd hqas (List.not_mem_nil q)
    | some m =>
      simp only [minById, hm] at h
      by_cases hle : a.id ≤ m.id
      · rw [if_pos hle] at h
        injection h with h2
        rcases List.mem_cons.mp hq with hqa | hqas
        · rw [← h2, hqa]
        · rw [← h2]
          exact le_trans hle (ih hm q hqas)
      · rw [if_neg hle] at h
        injection h with h2
        rcases List.mem_cons.mp hq with hqa | hqas
        · rw [← h2, hqa]
          exact le_of_lt (Nat.lt_of_not_le hle)
        · rw [← h2]
          exact ih hm q hqas

theorem pop_some_elim {s : Store} {r : DownloadRecord}
    (h : (popNextQueuedDownload s).1 = some r) :
    minById (s.rows.filter (fun x => x.status == Status.queued)) = some r := by
  cases hm : minById (s.rows.filter (fun x => x.status == Status.queued)) with
  | none =>
    simp only [popNextQueuedDownload, hm] at h
    exact absurd h (by simp)
  | some m =>
    simp only [popNextQueuedDownload, hm] at h
    injection h with h2
    rw [h2]

theorem pop_some_rows {s : Store} {r : DownloadRecord}
    (h : (popNextQueuedDownload s).1 = some r) :
    (popNextQueuedDownload s).2.rows = s.rows.map (fun q =>
      if q.id == r.id then { q with status := Status.pending } else q) := by
  have hm := pop_some_elim h
  simp only [popNextQueuedDownload, hm]

/-- C5: popNextQueuedDownload selects, in one store transaction, the queued
record with the least id — which under monotone id assignment is the oldest
queued record in FIFO creation order — flips exactly that row to pending,
and returns it; it returns none exactly when no queued record exists; and
a second pop from the resulting store can never return the same item. -/
theorem popNextQueued_spec (s : Store)
    (hmono : ∀ a ∈ s.rows, ∀ b ∈ s.rows, a.id ≤ b.id → a.createdAt ≤ b.createdAt) :
    ((popNextQueuedDownload s).1 = none ↔ ∀ r ∈ s.rows, r.status ≠ Status.queued) ∧
    (∀ r, (popNextQueuedDownload s).1 = some r →
      r ∈ s.rows ∧ r.status = Status.queued ∧
      (∀ q ∈ s.rows, q.status = Status.queued → r.id ≤ q.id ∧ r.createdAt ≤ q.createdAt) ∧
      (popNextQueuedDownload s).2.rows = s.rows.map (fun q =>
        if q.id == r.id then { q with status := Status.pending } else q) ∧
      (∀ r2, (popNextQueuedDownload (popNextQueuedDownload s).2).1 = some r2 →
        r2.id ≠ r.id)) := by
  constructor
  · constructor
    · intro h r hr hq
      unfold popNextQueuedDownload at h
      cases hm : minById (s.rows.filter (fun x => x.status == Status.queued)) with
      | none =>
        have : s.rows.filter (fun x => x.status == Status.queued) = [] :=
          minById_eq_nil hm
        have hmem : r ∈ s.rows.filter (fun x => x.status == Status.queued) :=
          List.mem_filter.mpr ⟨hr, by simp [hq]⟩
        rw [this] at hmem
        exact absurd hmem (List.not_mem_nil r)
      | some m => rw [hm] at h; exact absurd h (by simp)
    · intro h
      unfold popNextQueuedDownload
      cases hm : minById (s.rows.filter (fun x => x.status == Status.queued)) with
      | none => rfl
      | some m =>
        have hmem := minById_mem hm
        have := List.mem_filter.mp hmem
        exact absurd (by simpa using this.2) (h m this.1)
  · intro r hr
    have hm := pop_some_elim hr
    have hmem := minById_mem hm
    have hmf := List.mem_filter.mp hmem
    have hq : r.status = Status.queued := by simpa using hmf.2
    refine ⟨hmf.1, hq, ?_, pop_some_rows hr, ?_⟩
    · intro q hqmem hqst
      have hqf : q ∈ s.rows.filter (fun x => x.status == Status.queued) :=
        List.mem_filter.mpr ⟨hqmem, by simp [hqst]⟩
      have hle := minById_min hm q hqf
      exact ⟨hle, hmono r hmf.1 q hqmem hle⟩
    · intro r2 h2 hideq
      have hm2 := pop_some_elim h2
      have hmem2 := minById_mem hm2
      have hmf2 := List.mem_filter.mp hmem2
      have hq2 : r2.status = Status.queued := by simpa using hmf2.2
      rw [pop_some_rows hr] at hmf2
      rcases List.mem_map.mp hmf2.1 with ⟨q, _, hfq⟩
      by_cases hqid : (q.id == r.id) = true
      · rw [if_pos hqid] at hfq
        rw [← hfq] at hq2
        exact Status.noConfusion hq2
      · rw [if_neg (by simp_all)] at hfq
        rw [← hfq] at hideq
        exact absurd hideq (by simpa using hqid)

/-- The concrete store of the C5 witness: two queued rows (ids 5 and 3)
and one downloading row. -/
def storeC5 : Store :=
  Store.mk [sampleRow 5 "q2" Status.queued, sampleRow 3 "q1" Status.queued,
            sampleRow 1 "d" Status.downloading] 6

theorem popNextQueued_spec_witness :
    (∀ a ∈ storeC5.rows, ∀ b ∈ storeC5.rows, a.id ≤ b.id → a.createdAt ≤ b.createdAt) ∧
    ((popNextQueuedDownload storeC5).1 = none ↔
      ∀ r ∈ storeC5.rows, r.status ≠ Status.queued) :=
  ⟨by decide, (popNextQueued_spec storeC5 (by decide)).1⟩

/-! ### C4 — queue advancement after terminal events -/

/-- C4 (amended): after each terminal adapter event — the close handler
(covering both normal completion and cancellation, whose AbortError is
deferred to close) provided its fs.statSync does not throw, and the
non-abort error handler — a request-next-download event is emitted exactly
when the post-deletion active-set size is below the concurrency limit; and
whenever a queued record exists, the request-next-download handler pops
the minimal-id queued record and issues a start request for it. When the
close handler's statSync throws, advancement is skipped (see the
counterexample). -/
theorem queue_advancement_after_terminal (e : EngineState) (c : ServerConfig)
    (d : StartData) (title rp errMsg : String) (fz : Nat) (now : Nat)
    (hc : e.config = some c) :
    (Ev.requestNext ∈ (handleClose e d title rp fz true).2 ↔
      (handleClose e d title rp fz true).1.active.length < c.maxConcurrentDownloads) ∧
    (Ev.requestNext ∈ (handleError e d title errMsg false).2 ↔
      (handleError e d title errMsg false).1.active.length < c.maxConcurrentDownloads) ∧
    (∀ r0 ∈ e.store.rows, r0.status = Status.queued →
      ∃ r, (popNextQueuedDownload e.store).1 = some r ∧ r.status = Status.queued ∧
        (∀ q ∈ e.store.rows, q.status = Status.queued → r.id ≤ q.id) ∧
        (handleRequestNext e true now).1 = some (StartData.mk r.url r.urlId r.title)) := by
  refine ⟨?_, ?_, ?_⟩
  · by_cases hds : getDS e.dstate d.urlId ≠ some "stop" ∧
        getDS e.dstate d.urlId ≠ some "error"
    · by_cases hlen : (e.active.filter (fun x => x != d.urlId)).length <
          c.maxConcurrentDownloads
      · simp [handleClose, hds, processDownloadQueue, hc, hlen]
      · simp [handleClose, hds, processDownloadQueue, hc, hlen]
    · by_cases hlen : (e.active.filter (fun x => x != d.urlId)).length <
          c.maxConcurrentDownloads
      · simp [handleClose, hds, processDownloadQueue, hc, hlen]
      · simp [handleClose, hds, processDownloadQueue, hc, hlen]
  · by_cases hlen : (e.active.filter (fun x => x != d.urlId)).length <
        c.maxConcurrentDownloads
    · simp [handleError, processDownloadQueue, hc, hlen]
    · simp [handleError, processDownloadQueue, hc, hlen]
  · intro r0 hr0 hq0
    rcases hpair : popNextQueuedDownload e.store with ⟨o, s2⟩
    cases ho : o with
    | none =>
      exfalso
      have hm : minById (e.store.rows.filter (fun x => x.status == Status.queued)) =
          none := by
        cases hm2 : minById (e.store.rows.filter (fun x => x.status == Status.queued)) with
        | none => rfl
        | some m =>
          have := hpair
          simp only [popNextQueuedDownload, hm2] at this
          rw [ho] at this
          exact absurd (congrArg Prod.fst this) (by simp)
      have hnil := minById_eq_nil hm
      have hmem : r0 ∈ e.store.rows.filter (fun x => x.status == Status.queued) :=
        List.mem_filter.mpr ⟨hr0, by simp [hq0]⟩
      rw [hnil] at hmem
      exact absurd hmem (List.not_mem_nil r0)
    | some r =>
      have h1 : (popNextQueuedDownload e.store).1 = some r := by
        rw [hpair, ho]
      have hm := pop_some_elim h1
      have hmem := minById_mem hm
      have hmf := List.mem_filter.mp hmem
      refine ⟨r, rfl, by simpa using hmf.2, ?_, ?_⟩
      · intro q hqmem hqst
        exact minById_min hm q (List.mem_filter.mpr ⟨hqmem, by simp [hqst]⟩)
      · rw [ho] at hpair
        simp [handleRequestNext, hpair]

theorem queue_advancement_witness :
    (engineAB.config = some (ServerConfig.mk 1)) ∧
    (Ev.requestNext ∈ (handleClose engineAB (StartData.mk "uA" "A" "") "t" "/p" 7 true).2 ↔
      (handleClose engineAB (StartData.mk "uA" "A" "") "t" "/p" 7 true).1.active.length <
        (ServerConfig.mk 1).maxConcurrentDownloads) :=
  ⟨rfl, (queue_advancement_after_terminal engineAB (ServerConfig.mk 1)
    (StartData.mk "uA" "A" "") "t" "/p" "err" 7 9 rfl).1⟩

/-- C4 counterexample: a terminal close event for the active download A
whose fs.statSync throws (statOk false). Capacity is free afterwards
(active set empty, limit 1) and a queued record B exists, yet the handler
emits no events at all — in particular no request-next-download — so the
queue stalls although queued work exists and capacity is free. -/
theorem statSync_skips_queue_advancement :
    (handleClose engineAB (StartData.mk "uA" "A" "") "t" "/p" 7 false).2 = [] ∧
    (handleClose engineAB (StartData.mk "uA" "A" "") "t" "/p" 7 false).1.active = [] ∧
    engineAB.config = some (ServerConfig.mk 1) ∧
    (engineAB.store.rows.filter (fun r => r.status == Status.queued)).length = 1 := by
  decide

/-! ### C6 — crash recovery at startup -/

theorem mem_sortedInsertBy (k : DownloadRecord → Nat) (r x : DownloadRecord)
    (l : List DownloadRecord) :
    x ∈ sortedInsertBy k r l ↔ x = r ∨ x ∈ l := by
  induction l with
  | nil => simp [sortedInsertBy]
  | cons a as ih =>
    unfold sortedInsertBy
    by_cases h : k r ≤ k a
    · rw [if_pos h]
      simp [List.mem_cons]
    · rw [if_neg h]
      simp only [List.mem_cons, ih]
      tauto

theorem mem_sortByKey (k : DownloadRecord → Nat) (x : DownloadRecord)
    (l : List DownloadRecord) :
    x ∈ sortByKey k l ↔ x ∈ l := by
  induction l with
  | nil => simp [sortByKey]
  | cons a as ih =>
    simp only [sortByKey, List.foldr_cons] at ih ⊢
    rw [mem_sortedInsertBy, ih]
    simp [List.mem_cons]

theorem find?_id_map {F : DownloadRecord → DownloadRecord}
    (hF : ∀ x, (F x).id = x.id) (rows : List DownloadRecord) (i : Nat) :
    (rows.map F).find? (fun x => x.id == i) =
      (rows.find? (fun x => x.id == i)).map F := by
  induction rows with
  | nil => rfl
  | cons a as ih =>
    by_cases ha : (a.id == i) = true
    · have hFa : ((F a).id == i) = true := by rw [hF]; exact ha
      simp [List.find?_cons, ha, hFa]
    · have ha2 : (a.id == i) = false := by simpa using ha
      have hFa : ((F a).id == i) = false := by rw [hF]; exact ha2
      simp [List.find?_cons, ha2, hFa, ih]

theorem retryRows_id_pres (i : Nat) (st : Status)
    (now : Nat) (x : DownloadRecord) :
    ((fun r => if r.id == i then retryReset st now r else r) x).id = x.id := by
  by_cases hx : (x.id == i) = true <;> simp [hx, retryReset]

theorem retry_snd_rows (s : Store) (i : Nat) (st : Status) (now : Nat) :
    (retryDownload s i st now).2.rows = retryRows s.rows i st now := by
  cases hf : getDownloadById s i with
  | none =>
    simp only [retryDownload, hf]
    have h : ∀ x ∈ s.rows, (x.id == i) = false := by
      intro x hx
      have := List.find?_eq_none.mp hf x hx
      simpa using this
    exact (map_ite_id h).symm
  | some x => simp only [retryDownload, hf]

theorem retry_fst_of_found {s : Store} {i : Nat} {x : DownloadRecord}
    (st : Status) (now : Nat) (hf : getDownloadById s i = some x) :
    (retryDownload s i st now).1 =
      some (if x.id == i then retryReset st now x else x) := by
  simp only [retryDownload, hf]
  show getDownloadById { s with rows := retryRows s.rows i st now } i = _
  unfold getDownloadById retryRows
  rw [find?_id_map (retryRows_id_pres i st now)]
  unfold getDownloadById at hf
  rw [hf]
  rfl

theorem retry_fst_urlId {s : Store} {i : Nat} {x : DownloadRecord}
    (st : Status) (now : Nat) (hf : getDownloadById s i = some x) :
    ∃ r, (retryDownload s i st now).1 = some r ∧
      r.urlId = x.urlId ∧ r.url = x.url ∧ r.title = x.title := by
  refine ⟨_, retry_fst_of_found st now hf, ?_, ?_, ?_⟩ <;>
    by_cases hx : (x.id == i) = true <;> simp [hx, retryReset]

theorem resumeStep_fst (now : Nat) (acc : Store × List StartData)
    (d : DownloadRecord) :
    (resumeStep now acc d).1 = (retryDownload acc.1 d.id Status.pending now).2 := by
  unfold resumeStep
  rcases h : retryDownload acc.1 d.id Status.pending now with ⟨o, s2⟩
  cases o <;> simp

theorem resumeStep_mem (now : Nat) (acc : Store × List StartData)
    (d : DownloadRecord) (q : StartData) (h : q ∈ acc.2) :
    q ∈ (resumeStep now acc d).2 := by
  unfold resumeStep
  rcases hr : retryDownload acc.1 d.id Status.pending now with ⟨o, s2⟩
  cases o <;> simp [h]

theorem fold_reqs_mono (now : Nat) (L : List DownloadRecord) (s : Store)
    (reqs : List StartData) (q : StartData) (h : q ∈ reqs) :
    q ∈ (L.foldl (resumeStep now) (s, reqs)).2 := by
  induction L generalizing s reqs with
  | nil => simpa using h
  | cons d L ih =>
    rw [List.foldl_cons]
    rcases hstep : resumeStep now (s, reqs) d with ⟨s1, reqs1⟩
    have h1 : q ∈ reqs1 := by
      have := resumeStep_mem now (s, reqs) d q h
      rw [hstep] at this
      exact this
    exact ih s1 reqs1 h1

theorem resume_fold_rows (now : Nat) (L : List DownloadRecord) (s : Store)
    (reqs : List StartData) :
    ((L.foldl (resumeStep now) (s, reqs)).1).rows =
      s.rows.map (fun r =>
        if L.any (fun d => r.id == d.id) then retryReset Status.pending now r
        else r) := by
  induction L generalizing s reqs with
  | nil =>
    simp only [List.foldl_nil, List.any_nil]
    rw [map_ite_id (fun x _ => rfl)]
  | cons d L ih =>
    rw [List.foldl_cons]
    rcases hstep : resumeStep now (s, reqs) d with ⟨s1, reqs1⟩
    have hrows1 : s1.rows = retryRows s.rows d.id Status.pending now := by
      have h0 := resumeStep_fst now (s, reqs) d
      rw [hstep] at h0
      have hs1 : s1 = (retryDownload s d.id Status.pending now).2 := h0
      rw [hs1]
      exact retry_snd_rows s d.id Status.pending now
    rw [ih s1 reqs1, hrows1]
    unfold retryRows
    rw [List.map_map]
    apply List.map_congr_left
    intro r _
    simp only [Function.comp, List.any_cons]
    by_cases hid : (r.id == d.id) = true
    · rw [if_pos hid]
      have hresetid : (retryReset Status.pending now r).id = r.id := rfl
      by_cases hany : (L.any (fun d2 => (retryReset Status.pending now r).id == d2.id)) = true
      · rw [if_pos hany]
        have hany2 : (L.any (fun d2 => r.id == d2.id)) = true := by
          rw [← hresetid]; exact hany
        simp [hid, hany2, retryReset]
      · rw [if_neg hany]
        simp [hid]
    · rw [if_neg hid]
      have hid2 : (r.id == d.id) = false := by simpa using hid
      simp only [hid2, Bool.false_or]

theorem fold_reqs_cover (now : Nat) (L : List DownloadRecord) (s : Store)
    (reqs : List StartData)
    (hnd : (s.rows.map (fun r => r.id)).Nodup)
    (hL : ∀ d ∈ L, ∃ d0 ∈ s.rows, d0.id = d.id ∧ d0.urlId = d.urlId) :
    ∀ d ∈ L, ∃ q ∈ (L.foldl (resumeStep now) (s, reqs)).2, q.urlId = d.urlId := by
  induction L generalizing s reqs with
  | nil => simp
  | cons d L ih =>
    have hfound : ∃ d0, getDownloadById s d.id = some d0 ∧ d0.urlId = d.urlId := by
      obtain ⟨d0, hd0mem, hd0id, hd0url⟩ := hL d (List.mem_cons_self _ _)
      cases hf : getDownloadById s d.id with
      | none =>
        exfalso
        have := List.find?_eq_none.mp hf d0 hd0mem
        simp [hd0id] at this
      | some x =>
        have hxmem := List.mem_of_find?_eq_some hf
        have hxid : x.id = d.id := by simpa using List.find?_some hf
        have hx0 : x = d0 :=
          List.inj_on_of_nodup_map hnd hxmem hd0mem (by rw [hxid, hd0id])
        exact ⟨x, rfl, by rw [hx0, hd0url]⟩
    obtain ⟨d0, hf, hd0url⟩ := hfound
    obtain ⟨r, hr1, hrurl, _, _⟩ := retry_fst_urlId Status.pending now hf
    intro d2 hd2
    rw [List.foldl_cons]
    rcases hstep : resumeStep now (s, reqs) d with ⟨s1, reqs1⟩
    have hstep2 : resumeStep now (s, reqs) d =
        ((retryDownload s d.id Status.pending now).2,
         reqs ++ [StartData.mk r.url r.urlId r.title]) := by
      unfold resumeStep
      rcases hrd : retryDownload s d.id Status.pending now with ⟨o, s2⟩
      have ho : o = some r := by
        rw [show o = (o, s2).1 from rfl, ← hrd]
        exact hr1
      rw [ho]
    rw [hstep] at hstep2
    have hs1 : s1 = (retryDownload s d.id Status.pending now).2 :=
      congrArg Prod.fst hstep2
    have hreqs1 : reqs1 = reqs ++ [StartData.mk r.url r.urlId r.title] :=
      congrArg Prod.snd hstep2
    have hs1rows : s1.rows = retryRows s.rows d.id Status.pending now := by
      rw [hs1]; exact retry_snd_rows s d.id Status.pending now
    have hnd1 : (s1.rows.map (fun r => r.id)).Nodup := by
      rw [hs1rows]
      unfold retryRows
      rw [List.map_map]
      have : ((fun r : DownloadRecord => r.id) ∘
          (fun r => if r.id == d.id then retryReset Status.pending now r else r)) =
          (fun r : DownloadRecord => r.id) := by
        funext x
        exact retryRows_id_pres d.id Status.pending now x
      rw [this]
      exact hnd
    have hL1 : ∀ d3 ∈ L, ∃ d0 ∈ s1.rows, d0.id = d3.id ∧ d0.urlId = d3.urlId := by
      intro d3 hd3
      obtain ⟨d4, hd4mem, hd4id, hd4url⟩ := hL d3 (List.mem_cons_of_mem _ hd3)
      refine ⟨(fun r => if r.id == d.id then retryReset Status.pending now r else r) d4,
        ?_, ?_, ?_⟩
      · rw [hs1rows]
        unfold retryRows
        exact List.mem_map_of_mem _ hd4mem
      · rw [retryRows_id_pres d.id Status.pending now d4]
        exact hd4id
      · by_cases hx : (d4.id == d.id) = true <;> simp [hx, retryReset, hd4url]
    rcases List.mem_cons.mp hd2 with rfl | hmem
    · refine ⟨StartData.mk r.url r.urlId r.title, ?_, by rw [hrurl, hd0url]⟩
      apply fold_reqs_mono
      rw [hreqs1]
      simp
    · exact ih s1 reqs1 hnd1 hL1 d2 hmem

/-- C6 (amended): at process start every store record whose status is
downloading, pending or queued is retried — its status is reset to
pending, progress zeroed and error cleared, and a restart request carrying
its urlId re-enters the start pipeline — but this recovery runs strictly
AFTER the HTTP/WS server has started accepting external requests
(initSequence), not before, so new external start requests can be accepted
first. -/
theorem resume_retries_all_after_server_start (s : Store) (now : Nat)
    (hnd : (s.rows.map (fun r => r.id)).Nodup) :
    (∀ r ∈ s.rows,
       (r.status = Status.downloading ∨ r.status = Status.pending ∨
        r.status = Status.queued) →
       (∃ r2 ∈ (resumeUnfinishedDownloads s now).1.rows,
          r2.id = r.id ∧ r2.urlId = r.urlId ∧ r2.url = r.url ∧
          r2.status = Status.pending ∧ r2.progress = 0 ∧ r2.errorMessage = none) ∧
       (∃ q ∈ (resumeUnfinishedDownloads s now).2, q.urlId = r.urlId)) ∧
    initSequence.indexOf InitStep.startServerAccepting <
      initSequence.indexOf InitStep.resumeUnfinished := by
  refine ⟨?_, by decide⟩
  intro r hr hst
  have hrL : r ∈ getDownloadsByStatus s
      [Status.downloading, Status.pending, Status.queued] := by
    unfold getDownloadsByStatus
    rw [mem_sortByKey]
    apply List.mem_filter.mpr
    refine ⟨hr, ?_⟩
    rcases hst with h | h | h <;> simp [h]
  constructor
  · refine ⟨retryReset Status.pending now r, ?_, rfl, rfl, rfl, rfl, rfl, rfl⟩
    unfold resumeUnfinishedDownloads
    rw [resume_fold_rows]
    have hany : ((getDownloadsByStatus s
        [Status.downloading, Status.pending, Status.queued]).any
        (fun d => r.id == d.id)) = true := by
      apply List.any_eq_true.mpr
      exact ⟨r, hrL, by simp⟩
    have : (fun x => if (getDownloadsByStatus s
        [Status.downloading, Status.pending, Status.queued]).any
        (fun d => x.id == d.id) = true then retryReset Status.pending now x else x) r =
        retryReset Status.pending now r := by
      simp [hany]
    rw [← this]
    exact List.mem_map_of_mem _ hr
  · unfold resumeUnfinishedDownloads
    apply fold_reqs_cover now _ s [] hnd
    · intro d hd
      refine ⟨d, ?_, rfl, rfl⟩
      unfold getDownloadsByStatus at hd
      rw [mem_sortByKey] at hd
      exact (List.mem_filter.mp hd).1
    · exact hrL

/-- The concrete store of the C6 witness: one downloading, one completed
and one queued record. -/
def storeC6 : Store :=
  Store.mk [sampleRow 1 "d" Status.downloading, sampleRow 2 "c" Status.completed,
            sampleRow 3 "q" Status.queued] 4

theorem resume_retries_witness :
    ((storeC6.rows.map (fun r => r.id)).Nodup) ∧
    initSequence.indexOf InitStep.startServerAccepting <
      initSequence.indexOf InitStep.resumeUnfinished :=
  ⟨by decide, (resume_retries_all_after_server_start storeC6 9 (by decide)).2⟩

/-- C6 counterexample to "before any new external start request is
accepted": in the startup order of ElectronApp, the server starts
accepting external requests strictly before resumeUnfinishedDownloads
runs (await startServer precedes await resumeUnfinishedDownloads). -/
theorem server_accepts_before_resume :
    initSequence.indexOf InitStep.startServerAccepting <
      initSequence.indexOf InitStep.resumeUnfinished ∧
    InitStep.startServerAccepting ∈ initSequence ∧
    InitStep.resumeUnfinished ∈ initSequence := by
  decide

/-! ### C7 — sync-history reconciliation is idempotent -/

theorem hasUrlId_insert_mono (now : Nat) (s : Store) (i j : String)
    (h : hasUrlId s i = true) : hasUrlId (syncInsertCheck now s j) i = true := by
  unfold syncInsertCheck
  by_cases hj : hasUrlId s j = true
  · simp [hj, h]
  · simp only [hj, if_neg, Bool.false_eq_true, if_false]
    unfold hasUrlId at h ⊢
    simp [List.any_append, h]

theorem hasUrlId_insert_self (now : Nat) (s : Store) (j : String) :
    hasUrlId (syncInsertCheck now s j) j = true := by
  unfold syncInsertCheck
  by_cases hj : hasUrlId s j = true
  · simp [hj]
  · simp only [hj, Bool.false_eq_true, if_false]
    unfold hasUrlId
    simp [List.any_append]

theorem hasUrlId_fold_mono (now : Nat) (L : List String) (s : Store) (i : String)
    (h : hasUrlId s i = true) :
    hasUrlId (L.foldl (syncInsertCheck now) s) i = true := by
  induction L generalizing s with
  | nil => simpa using h
  | cons j L ih => exact ih _ (hasUrlId_insert_mono now s i j h)

theorem hasUrlId_fold_mem (now : Nat) (L : List String) (s : Store) (i : String)
    (h : i ∈ L) : hasUrlId (L.foldl (syncInsertCheck now) s) i = true := by
  induction L generalizing s with
  | nil => exact absurd h (List.not_mem_nil i)
  | cons j L ih =>
    rcases List.mem_cons.mp h with rfl | hmem
    · exact hasUrlId_fold_mono now L _ i (hasUrlId_insert_self now s i)
    · exact ih _ hmem

theorem nodup_insert (now : Nat) (s : Store) (i : String)
    (h : (s.rows.map (fun r => r.urlId)).Nodup) :
    (((syncInsertCheck now s i).rows.map (fun r => r.urlId))).Nodup := by
  unfold syncInsertCheck
  by_cases hi : hasUrlId s i = true
  · simpa [hi] using h
  · simp only [hi, Bool.false_eq_true, if_false, List.map_append, List.map_cons,
      List.map_nil]
    rw [List.nodup_append]
    refine ⟨h, by simp, ?_⟩
    intro x hx
    simp only [List.mem_singleton]
    intro hxi
    apply hi
    unfold hasUrlId
    apply List.any_eq_true.mpr
    rcases List.mem_map.mp hx with ⟨r, hrmem, hr⟩
    exact ⟨r, hrmem, by simp [hr, hxi]⟩

theorem nodup_fold (now : Nat) (L : List String) (s : Store)
    (h : (s.rows.map (fun r => r.urlId)).Nodup) :
    (((L.foldl (syncInsertCheck now) s).rows.map (fun r => r.urlId))).Nodup := by
  induction L generalizing s with
  | nil => simpa using h
  | cons j L ih => exact ih _ (nodup_insert now s j h)

/-- C7: running the history-sync reconciliation twice with identical
client-side urlId sets is idempotent: the second run inserts no new rows
(the store is unchanged), the second missing-ids response equals the
first, the missing-ids response contains no duplicates, and the store
keeps at most one row per urlId. The source builds SQL IN (...) lists,
which errors on an empty client set, so a nonempty client set is
assumed. -/
theorem sync_history_idempotent (s : Store) (clientIds : List String)
    (n1 n2 : Nat)
    (_hne : clientIds ≠ [])
    (hnd : (s.rows.map (fun r => r.urlId)).Nodup) :
    (syncHistory (syncHistory s clientIds n1).1 clientIds n2).1 =
      (syncHistory s clientIds n1).1 ∧
    (syncHistory (syncHistory s clientIds n1).1 clientIds n2).2 =
      (syncHistory s clientIds n1).2 ∧
    (syncHistory s clientIds n1).2.Nodup ∧
    (((syncHistory s clientIds n1).1.rows.map (fun r => r.urlId))).Nodup := by
  have hpres : ∀ i ∈ removeDuplicates clientIds,
      hasUrlId (syncHistory s clientIds n1).1 i = true := by
    intro i hi
    show hasUrlId
      (((removeDuplicates clientIds).filter
        (fun i => !(hasUrlId s i))).foldl (syncInsertCheck n1) s) i = true
    by_cases hs : hasUrlId s i = true
    · exact hasUrlId_fold_mono n1 _ s i hs
    · apply hasUrlId_fold_mem
      apply List.mem_filter.mpr
      exact ⟨hi, by simp [hs]⟩
  have hnil : (removeDuplicates clientIds).filter
      (fun i => !(hasUrlId (syncHistory s clientIds n1).1 i)) = [] := by
    apply List.filter_eq_nil_iff.mpr
    intro i hi
    simp [hpres i hi]
  have hstore : (syncHistory (syncHistory s clientIds n1).1 clientIds n2).1 =
      (syncHistory s clientIds n1).1 := by
    show (((removeDuplicates clientIds).filter
      (fun i => !(hasUrlId (syncHistory s clientIds n1).1 i))).foldl
        (syncInsertCheck n2) (syncHistory s clientIds n1).1) =
      (syncHistory s clientIds n1).1
    rw [hnil]
    rfl
  have hnd1 : (((syncHistory s clientIds n1).1.rows.map (fun r => r.urlId))).Nodup := by
    show ((((removeDuplicates clientIds).filter
      (fun i => !(hasUrlId s i))).foldl (syncInsertCheck n1) s).rows.map
        (fun r => r.urlId)).Nodup
    exact nodup_fold n1 _ s hnd
  refine ⟨hstore, ?_, ?_, hnd1⟩
  · show ((syncHistory (syncHistory s clientIds n1).1 clientIds n2).1.rows.filter
      (fun r => !((removeDuplicates clientIds).contains r.urlId))).map
        (fun r => r.urlId) =
      ((syncHistory s clientIds n1).1.rows.filter
      (fun r => !((removeDuplicates clientIds).contains r.urlId))).map
        (fun r => r.urlId)
    rw [hstore]
  · show (((syncHistory s clientIds n1).1.rows.filter
      (fun r => !((removeDuplicates clientIds).contains r.urlId))).map
        (fun r => r.urlId)).Nodup
    apply List.Nodup.sublist _ hnd1
    exact List.Sublist.map _ (List.filter_sublist _)

/-- The concrete store of the C7 witness. -/
def storeC7 : Store :=
  Store.mk [sampleRow 1 "x" Status.completed, sampleRow 2 "y" Status.failed] 3

theorem sync_history_idempotent_witness :
    ((["x", "z", "z"] : List String) ≠ [] ∧
     (storeC7.rows.map (fun r => r.urlId)).Nodup) ∧
    (syncHistory (syncHistory storeC7 ["x", "z", "z"] 9).1 ["x", "z", "z"] 11).1 =
      (syncHistory storeC7 ["x", "z", "z"] 9).1 ∧
    (syncHistory (syncHistory storeC7 ["x", "z", "z"] 9).1 ["x", "z", "z"] 11).2 =
      (syncHistory storeC7 ["x", "z", "z"] 9).2 ∧
    (syncHistory storeC7 ["x", "z", "z"] 9).2.Nodup := by
  refine ⟨⟨by decide, by decide⟩, ?_⟩
  have h := sync_history_idempotent storeC7 ["x", "z", "z"] 9 11
    (by decide) (by decide)
  exact ⟨h.1, h.2.1, h.2.2.1⟩

/-! ### C8 — id assignment, stability, and the startup re-index -/

theorem map_ids_of_pres {f : DownloadRecord → DownloadRecord}
    (hf : ∀ r, (f r).id = r.id) (l : List DownloadRecord) :
    (l.map f).map (fun r => r.id) = l.map (fun r => r.id) := by
  rw [List.map_map]
  exact List.map_congr_left (fun a _ => hf a)

theorem length_sortedInsertBy (k : DownloadRecord → Nat) (r : DownloadRecord)
    (l : List DownloadRecord) :
    (sortedInsertBy k r l).length = l.length + 1 := by
  induction l with
  | nil => rfl
  | cons a as ih =>
    unfold sortedInsertBy
    by_cases h : k r ≤ k a
    · rw [if_pos h]; rfl
    · rw [if_neg h]
      simp [ih]

theorem length_sortByKey (k : DownloadRecord → Nat) (l : List DownloadRecord) :
    (sortByKey k l).length = l.length := by
  induction l with
  | nil => rfl
  | cons a as ih =>
    simp only [sortByKey, List.foldr_cons] at ih ⊢
    rw [length_sortedInsertBy, ih]
    rfl

theorem renumber_ids (n : Nat) (l : List DownloadRecord) :
    (renumberFrom n l).map (fun r => r.id) = natRangeFrom n l.length := by
  induction l generalizing n with
  | nil => rfl
  | cons a as ih =>
    simp only [renumberFrom, List.map_cons, List.length_cons, natRangeFrom]
    rw [ih]

theorem pop_none_snd {s : Store} (h : (popNextQueuedDownload s).1 = none) :
    (popNextQueuedDownload s).2 = s := by
  cases hm : minById (s.rows.filter (fun r => r.status == Status.queued)) with
  | none => simp [popNextQueuedDownload, hm]
  | some m =>
    exfalso
    simp only [popNextQueuedDownload, hm] at h
    exact Option.noConfusion h

/-- C8 (amended): record ids are monotonically assigned by the store (a
fresh insert gets an id strictly above every existing id), and no
record-update operation — progress, completion, failure, cancellation,
retry, or the queue pop — ever changes the id of an existing row; however
the claim's "including process restart and store re-initialization" fails:
reindexDownloadsId, run on every DatabaseManager startup, reassigns ids
1..n in created_at order, which can change an existing record's id (see
the counterexample). -/
theorem id_assignment_and_reindex (s : Store) (now : Nat) (u eMsg : String)
    (t fp : Option String) (pr : Nat) (fz : Option Nat) (i : Nat) (st : Status)
    (hinv : ∀ r ∈ s.rows, r.id < s.nextId) :
    (∀ url uid ti stt, (createDownloadRecord s url uid ti stt now).2.2 = true →
      ∀ r ∈ s.rows, r.id < (createDownloadRecord s url uid ti stt now).2.1.id) ∧
    ((updateProgressRows s.rows u pr t).1.map (fun r => r.id) =
      s.rows.map (fun r => r.id)) ∧
    ((completeDownload s u fp t fz now).1.rows.map (fun r => r.id) =
      s.rows.map (fun r => r.id)) ∧
    ((failDownload s u eMsg t now).1.rows.map (fun r => r.id) =
      s.rows.map (fun r => r.id)) ∧
    ((cancelDownload s u now).1.rows.map (fun r => r.id) =
      s.rows.map (fun r => r.id)) ∧
    ((retryDownload s i st now).2.rows.map (fun r => r.id) =
      s.rows.map (fun r => r.id)) ∧
    ((popNextQueuedDownload s).2.rows.map (fun r => r.id) =
      s.rows.map (fun r => r.id)) ∧
    ((reindexDownloadsId s).rows.map (fun r => r.id) =
      natRangeFrom 1 s.rows.length) := by
  refine ⟨?_, ?_, ?_, ?_, ?_, ?_, ?_, ?_⟩
  · intro url uid ti stt hins r hr
    cases hfind : getDownloadByUrlId s uid with
    | some x => exact absurd hins (by simp [createDownloadRecord, hfind])
    | none =>
      simp only [createDownloadRecord, hfind]
      exact hinv r hr
  · apply map_ids_of_pres
    intro r
    by_cases hp : activeRowFor u r = true <;> simp [hp]
  · apply map_ids_of_pres
    intro r
    by_cases hp : activeRowFor u r = true <;> simp [hp]
  · apply map_ids_of_pres
    intro r
    by_cases hp : (r.urlId == u) = true <;> simp [hp]
  · apply map_ids_of_pres
    intro r
    by_cases hp : activeRowFor u r = true <;> simp [hp]
  · rw [retry_snd_rows]
    apply map_ids_of_pres
    exact retryRows_id_pres i st now
  · cases ho : (popNextQueuedDownload s).1 with
    | none => rw [pop_none_snd ho]
    | some r =>
      rw [pop_some_rows ho]
      apply map_ids_of_pres
      intro q
      by_cases hq : (q.id == r.id) = true <;> simp [hq]
  · show (renumberFrom 1 (sortByKey (fun r => r.createdAt) s.rows)).map
        (fun r => r.id) = natRangeFrom 1 s.rows.length
    rw [renumber_ids, length_sortByKey]

/-- The concrete store of the C8 witness and counterexample: ids 1 and 3
(a gap as left by a deleted row), created in id order. -/
def storeC8 : Store :=
  Store.mk [sampleRow 1 "a" Status.completed,
            { sampleRow 3 "b" Status.completed with createdAt := 20 }] 4

theorem id_assignment_and_reindex_witness :
    (∀ r ∈ storeC8.rows, r.id < storeC8.nextId) ∧
    ((failDownload storeC8 "a" "boom" none 9).1.rows.map (fun r => r.id) =
      storeC8.rows.map (fun r => r.id)) ∧
    ((reindexDownloadsId storeC8).rows.map (fun r => r.id) =
      natRangeFrom 1 storeC8.rows.length) := by
  refine ⟨by decide, ?_⟩
  have h := id_assignment_and_reindex storeC8 9 "a" "boom" none none 0 none 1
    Status.pending (by decide)
  exact ⟨h.2.2.2.1, h.2.2.2.2.2.2.2⟩

/-- C8 counterexample: reindexDownloadsId — run on every store
(re-)initialization — changes the id of an existing record: the record
for urlId b has id 3 before and id 2 after. -/
theorem reindex_changes_existing_id :
    (storeC8.rows.find? (fun r => r.urlId == "b")).map (fun r => r.id) =
      some 3 ∧
    ((reindexDownloadsId storeC8).rows.find? (fun r => r.urlId == "b")).map
      (fun r => r.id) = some 2 := by
  decide

end DuckTracker
